import Mathlib

/-!
Verification of the BPMN Structural Graph Engine.

This file is a shallow embedding, in Lean 4, of the core graph algorithms of
the repository:

* `generation/seq.py` — the Closure Reducer (`update_seq_with_gate`);
* `verification/bpmn_to_pt.py` — the BPMN → Petri-net translator;
* `verification/ctl.py` — the formula-substitution engine;
* `benchmark/metrics/ssdt.py` — the SSDT distance-matrix similarity;
* `benchmark/metrics/jaccard.py` — the Jaccard flow-set similarity.

Python strings are `String`, Python lists are `List`, Python sets are
`Finset String`, Python dicts are association lists, floats that only ever
hold ratios of integers (similarity scores) are `ℚ`, and the value
`float('inf')` used as an "unreachable" distance is `none : Option ℕ`.
Recursions that Python performs without a bound (the closure recursion and
the BFS work-list loop) are given an explicit fuel parameter; a fueled
function returns `none` (or its input, for the BFS loop) when the fuel runs
out, and the theorems below either quantify over the fuel or supply a fuel
that provably suffices.
-/

namespace BPMN


/-! ## String helpers

Python's `in`, `startswith`, `replace` and `sorted` on strings, re-implemented
over `List Char` so that every use reduces by `decide`.  `strReplace` has
Python's `str.replace` semantics: scan left to right, replace each
non-overlapping occurrence. -/

/-- `clStartsWith pat l` is true iff `pat` is an initial segment of `l`. -/
def clStartsWith : List Char → List Char → Bool
  | [], _ => true
  | _ :: _, [] => false
  | p :: ps, c :: cs => p == c && clStartsWith ps cs

/-- `clContains pat l`: does `pat` occur contiguously inside `l`?
Mirrors Python's `pat in l` on strings. -/
def clContains (pat : List Char) : List Char → Bool
  | [] => clStartsWith pat []
  | c :: cs => clStartsWith pat (c :: cs) || clContains pat cs

/-- Python `pat in s` for strings. -/
def strContains (s pat : String) : Bool :=
  clContains pat.data s.data

/-- Python `s.startswith(pat)`. -/
def strStartsWith (s pat : String) : Bool :=
  clStartsWith pat.data s.data

/-- One fuel-indexed pass of Python's `str.replace` over the character list:
at each position, if the (non-empty) pattern matches, emit the replacement
and skip the matched characters, otherwise keep one character.  The fuel is
an upper bound on the number of positions inspected; `s.length` suffices. -/
def replaceCLFuel (pat rep : List Char) : Nat → List Char → List Char
  | 0, s => s
  | _ + 1, [] => []
  | fuel + 1, c :: cs =>
    if pat ≠ [] ∧ clStartsWith pat (c :: cs) = true then
      rep ++ replaceCLFuel pat rep fuel ((c :: cs).drop pat.length)
    else
      c :: replaceCLFuel pat rep fuel cs

/-- Python `s.replace(pat, rep)` (all occurrences, left to right,
non-overlapping). -/
def strReplace (s pat rep : String) : String :=
  ⟨replaceCLFuel pat.data rep.data s.data.length s.data⟩

/-- Lexicographic order on characters by code point, as Python compares
strings. -/
def clLt : List Char → List Char → Bool
  | [], [] => false
  | [], _ :: _ => true
  | _ :: _, [] => false
  | a :: as, b :: bs =>
    if a.toNat < b.toNat then true
    else if b.toNat < a.toNat then false
    else clLt as bs

/-- Python `<` on strings. -/
def strLtB (a b : String) : Bool :=
  clLt a.data b.data

/-- Stable insertion into an ascending list (new element goes after equal
ones), used to model Python's `sorted`. -/
def insertStr (x : String) : List String → List String
  | [] => [x]
  | y :: ys => if strLtB x y then x :: y :: ys else y :: insertStr x ys

/-- Python `sorted` on a list of strings (stable, ascending). -/
def sortStrings (l : List String) : List String :=
  l.foldr insertStr []

/-! ## `generation/seq.py` — the Closure Reducer

`update_seq_with_gate(control_flow, gateways)` receives the flow records
`{'actor': …, 'from': …, 'to': …}` and the gateway records
`{'gateway_symbol': …, 'from_tasks': …, 'to_tasks': …}`.  The Python
recursion `add_input_actions_to_closure` has no termination guard, so the
embedding threads a fuel and the whole reducer returns `Option`: `none`
means the recursion did not finish within the given fuel (and, since the
theorems about cyclic inputs show `none` for *every* fuel, that the Python
original recurses without bound there). -/

/-- A control-flow record.  `src`/`tgt` model the Python dict keys
`'from'`/`'to'` (`from` is a Lean keyword). -/
structure Flow where
  actor : String
  src : String
  tgt : String
deriving DecidableEq, Repr

/-- A gateway record, with the field names of the Python dicts. -/
structure Gateway where
  gateway_symbol : String
  from_tasks : List String
  to_tasks : List String
deriving DecidableEq, Repr

/-- `gateway_map[symbol]`: the Python dict comprehension keeps the *last*
gateway with a given symbol, hence the lookup scans the reversed list. -/
def gatewayLookup (gws : List Gateway) (sym : String) : Option Gateway :=
  gws.reverse.find? (fun g => g.gateway_symbol == sym)

/-- `add_input_actions_to_closure(element, closure)`: recursively expand
gateway references through `from_tasks`, accumulating leaf identifiers.
Fueled; `none` when the fuel is exhausted before the recursion finishes. -/
def add_input_actions_to_closure (gws : List Gateway) :
    Nat → String → Finset String → Option (Finset String)
  | 0, _, _ => none
  | fuel + 1, element, closure =>
    match gatewayLookup gws element with
    | some gw =>
        gw.from_tasks.foldlM
          (fun c t => add_input_actions_to_closure gws fuel t c) closure
    | none => some (insert element closure)

/-- `add_output_actions_to_closure(element, closure)`: symmetric expansion
through `to_tasks`. -/
def add_output_actions_to_closure (gws : List Gateway) :
    Nat → String → Finset String → Option (Finset String)
  | 0, _, _ => none
  | fuel + 1, element, closure =>
    match gatewayLookup gws element with
    | some gw =>
        gw.to_tasks.foldlM
          (fun c t => add_output_actions_to_closure gws fuel t c) closure
    | none => some (insert element closure)

/-- The single input-closure set `IC` that `update_seq_with_gate` builds: it
starts empty and every gateway's inputs are expanded into the same pooled
set. -/
def global_input_closure (gws : List Gateway) (fuel : Nat) :
    Option (Finset String) :=
  gws.foldlM
    (fun acc gw =>
      gw.from_tasks.foldlM
        (fun c t => add_input_actions_to_closure gws fuel t c) acc)
    ∅

/-- The single pooled output-closure set `OC` of `update_seq_with_gate`. -/
def global_output_closure (gws : List Gateway) (fuel : Nat) :
    Option (Finset String) :=
  gws.foldlM
    (fun acc gw =>
      gw.to_tasks.foldlM
        (fun c t => add_output_actions_to_closure gws fuel t c) acc)
    ∅

/-- Is the flow `(src, tgt)` subsumed according to the pooled closures, i.e.
`f_in in IC and f_out in OC` in the Python removal test? -/
def flowSubsumed (IC OC : Finset String) (f : Flow) : Bool :=
  decide (f.src ∈ IC) && decide (f.tgt ∈ OC)

/-- The removal phase: Python first collects `flows_to_remove` (every record
whose endpoints lie in `IC`/`OC`) and then calls `F_prime.remove(flow)` —
erase the first equal record — once per collected record. -/
def remove_subsumed_flows (flows : List Flow) (IC OC : Finset String) :
    List Flow :=
  (flows.filter (flowSubsumed IC OC)).foldl (fun acc f => acc.erase f) flows

/-- The addition phase for one gateway: append `(i, g)` for every input `i`
not yet connected, then `(g, o)` for every output `o` not yet connected;
synthesized records carry the reserved actor `"GATEWAY"`.  The membership
test runs against the list as it grows, exactly as the Python loop tests
`F_prime` while appending to it. -/
def augmentGateway (acc : List Flow) (gw : Gateway) : List Flow :=
  let acc1 := gw.from_tasks.foldl
    (fun a i =>
      if a.any (fun f => f.src == i && f.tgt == gw.gateway_symbol) then a
      else a ++ [⟨"GATEWAY", i, gw.gateway_symbol⟩])
    acc
  gw.to_tasks.foldl
    (fun a o =>
      if a.any (fun f => f.src == gw.gateway_symbol && f.tgt == o) then a
      else a ++ [⟨"GATEWAY", gw.gateway_symbol, o⟩])
    acc1

/-- The addition phase over all gateways, in order. -/
def augment_with_gateways (flows : List Flow) (gws : List Gateway) :
    List Flow :=
  gws.foldl augmentGateway flows

/-- `update_seq_with_gate(control_flow, gateways)`: build the pooled
closures `IC`/`OC`, remove the subsumed flows, then add the missing gateway
connections.  `none` when the closure recursion does not finish within
`fuel`. -/
def update_seq_with_gate (flows : List Flow) (gws : List Gateway)
    (fuel : Nat) : Option (List Flow) := do
  let IC ← global_input_closure gws fuel
  let OC ← global_output_closure gws fuel
  return augment_with_gateways (remove_subsumed_flows flows IC OC) gws


/-- The self-referencing gateway used to exhibit the unguarded recursion. -/
def cyclicGateway : Gateway := ⟨"G1", ["G1"], []⟩


/-! ## `verification/bpmn_to_pt.py` — the BPMN → Petri-net translator

The embedding starts from the already-parsed XML document: a `BpmnDoc`
holds an optional `collaboration` element (participants and message flows)
and the `process` elements with their tasks, events, gateways and sequence
flows, exactly the data `parse_bpmn_collaboration` extracts.  Gateway
`type` is the XML tag's local name (e.g. `"exclusiveGateway"`), as produced
by `gateway.tag.split('}')[-1]`.  The naming-convention lookups of
`utils/configure` (an excluded collaborator) resolve to the source's
defaults `p_start_`/`p_end_`/`p_pre_`/`p_post_`/`p_msg_`/`t_`. -/

/-- A `process` element: task ids, start/end event ids, gateways as
`(id, tag-local-name)` pairs, and sequence flows as `(sourceRef, targetRef)`
pairs. -/
structure ProcessInfo where
  tasks : List String
  start_events : List String
  end_events : List String
  gateways : List (String × String)
  sequence_flows : List (String × String)
deriving DecidableEq, Repr

/-- A `participant` of the `collaboration` element. -/
structure Participant where
  id : String
  name : String
  process_ref : String
deriving DecidableEq, Repr

/-- A `messageFlow` of the `collaboration` element. -/
structure MessageFlow where
  source : String
  target : String
  id : String
deriving DecidableEq, Repr

/-- The `collaboration` element. -/
structure Collaboration where
  participants : List Participant
  message_flows : List MessageFlow
deriving DecidableEq, Repr

/-- A parsed BPMN document: the optional collaboration element and the
process elements keyed by their id. -/
structure BpmnDoc where
  collaboration : Option Collaboration
  processes : List (String × ProcessInfo)
deriving DecidableEq, Repr

/-- The Petri net dictionary built by the converter (`final_markings` stays
empty throughout the source and is omitted). -/
structure PetriNet where
  places : List String
  transitions : List String
  arcs : List (String × String)
  initial_marking : List (String × Nat)
deriving DecidableEq, Repr

/-- The `collaboration_info` dictionary of `parse_bpmn_collaboration`:
lanes and message flows are filled only when a `collaboration` element is
present; processes are always parsed. -/
structure CollaborationInfo where
  lanes : List Participant
  message_flows : List MessageFlow
  processes : List (String × ProcessInfo)
deriving DecidableEq, Repr

/-- `parse_bpmn_collaboration`: without a `collaboration` element the lane
dictionary and the message-flow list stay empty. -/
def parse_bpmn_collaboration (doc : BpmnDoc) : CollaborationInfo :=
  match doc.collaboration with
  | some c => ⟨c.participants, c.message_flows, doc.processes⟩
  | none => ⟨[], [], doc.processes⟩

/-- The converter's gateway branch test: `'Exclusive' in t or 'Inclusive'
in t`, else `'Parallel' in t` — both branches emit the identical
pre-place/transition/post-place pattern, any other type emits nothing.
The substring tests are case-sensitive, so the camelCase tag names the
parser produces (`"exclusiveGateway"`, …) match neither branch. -/
def gatewayEmitsPattern (t : String) : Bool :=
  if strContains t "Exclusive" || strContains t "Inclusive" then true
  else if strContains t "Parallel" then true
  else false

/-- `convert_lane_to_petri_net(lane_info, process_info)`: lane start/end
places (start place marked with one token), a pre-place/transition/post-place
pattern per task and per handled gateway, then one place-to-place arc per
sequence flow whose resolved endpoints both exist among the places. -/
def convert_lane_to_petri_net (laneName : String) (proc : ProcessInfo) :
    PetriNet :=
  let start_place := "p_start_" ++ laneName
  let end_place := "p_end_" ++ laneName
  let keptGws := proc.gateways.filter (fun g => gatewayEmitsPattern g.2)
  let places := [start_place, end_place]
    ++ proc.tasks.flatMap (fun t => ["p_pre_" ++ t, "p_post_" ++ t])
    ++ keptGws.flatMap (fun g => ["p_pre_" ++ g.1, "p_post_" ++ g.1])
  let transitions := proc.tasks.map (fun t => "t_" ++ t)
    ++ keptGws.map (fun g => "t_" ++ g.1)
  let taskArcs := proc.tasks.flatMap
    (fun t => [("p_pre_" ++ t, "t_" ++ t), ("t_" ++ t, "p_post_" ++ t)])
  let gwArcs := keptGws.flatMap
    (fun g => [("p_pre_" ++ g.1, "t_" ++ g.1), ("t_" ++ g.1, "p_post_" ++ g.1)])
  let flowArcs := proc.sequence_flows.filterMap (fun f =>
    let sp := if f.1 ∈ proc.start_events then start_place
              else "p_post_" ++ f.1
    let tp := if f.2 ∈ proc.end_events then end_place
              else "p_pre_" ++ f.2
    if sp ∈ places ∧ tp ∈ places then some (sp, tp) else none)
  ⟨places, transitions, taskArcs ++ gwArcs ++ flowArcs, [(start_place, 1)]⟩

/-- `merge_petri_nets_with_message_flows`: concatenate the lane nets, then,
per message flow, always add its message place and add the two arcs only
when the named transitions exist.  The marking dictionaries are merged by
concatenation (their keys, the lane start places, are pairwise distinct
whenever the lane names are). -/
def merge_petri_nets_with_message_flows (lanes : List PetriNet)
    (msgs : List MessageFlow) : PetriNet :=
  let merged : PetriNet :=
    ⟨lanes.flatMap (fun n => n.places), lanes.flatMap (fun n => n.transitions),
     lanes.flatMap (fun n => n.arcs), lanes.flatMap (fun n => n.initial_marking)⟩
  msgs.foldl (fun net m =>
    let msgPlace := "p_msg_" ++ m.id
    let net1 : PetriNet := { net with places := net.places ++ [msgPlace] }
    let net2 : PetriNet :=
      if ("t_" ++ m.source) ∈ net1.transitions then
        { net1 with arcs := net1.arcs ++ [("t_" ++ m.source, msgPlace)] }
      else net1
    if ("t_" ++ m.target) ∈ net2.transitions then
      { net2 with arcs := net2.arcs ++ [(msgPlace, "t_" ++ m.target)] }
    else net2) merged

/-- `convert_collaboration_bpmn_to_petri_net`: one lane net per participant
whose `processRef` resolves, then the merge. -/
def convert_collaboration_bpmn_to_petri_net (doc : BpmnDoc) : PetriNet :=
  let info := parse_bpmn_collaboration doc
  let lanePNs := info.lanes.filterMap (fun lane =>
    (info.processes.lookup lane.process_ref).map
      (fun proc => convert_lane_to_petri_net lane.name proc))
  merge_petri_nets_with_message_flows lanePNs info.message_flows

/-- `convert_bpmn_to_petri_net`: the source branches on the presence of a
`collaboration` element but calls the very same collaboration converter in
both branches. -/
def convert_bpmn_to_petri_net (doc : BpmnDoc) : PetriNet :=
  convert_collaboration_bpmn_to_petri_net doc

/-- The two-task sequential single-process document S1→T1→T2→E1 of the
end-to-end scenario, with no `collaboration` element. -/
def singleProcessDoc : BpmnDoc :=
  ⟨none, [("P1", ⟨["T1", "T2"], ["S1"], ["E1"], [],
    [("S1", "T1"), ("T1", "T2"), ("T2", "E1")]⟩)]⟩

/-! ## `verification/ctl.py` — the formula-substitution engine

`load_petri_net` reads the PNML produced by `bpmn_to_pt.py` and returns
places/transitions keyed by id with `name = id`, plus the arcs in document
order; the embedding starts from that structure.  The naming-convention
lookups resolve to the source defaults `t_` and `p_`. -/

/-- The dictionary `load_petri_net` returns: place ids, transition ids
(each with `name = id`), and the arcs in document order. -/
structure PetriNetData where
  places : List String
  transitions : List String
  arcs : List (String × String)
deriving DecidableEq, Repr

/-- `map_symbol_to_transition(symbol, petri_net_data)`: exact match on
`t_{symbol}`, then a fallback scan comparing each transition's name (which
`load_petri_net` sets to its id) with the symbol. -/
def map_symbol_to_transition (symbol : String) (pn : PetriNetData) :
    Option String :=
  let expected := "t_" ++ symbol
  if expected ∈ pn.transitions then some expected
  else pn.transitions.find? (fun t => t == symbol)

/-- `get_post_places(transition_id, petri_net_data)`: targets of arcs
leaving the transition, kept only when they start with the place prefix
`p_`. -/
def get_post_places (t : String) (pn : PetriNetData) : List String :=
  (pn.arcs.filter (fun a => a.1 == t && strStartsWith a.2 "p_")).map
    (fun a => a.2)

/-- The substitution expression `e_k`: the single post-place itself when
there is exactly one, otherwise the parenthesized ` AND `-join. -/
def substitution_expression (P : List String) : String :=
  if P.length = 1 then P.headD ""
  else "(" ++ String.intercalate " AND " P ++ ")"

/-- Python dict assignment `E[k] = v` on an association list whose keys are
unique (as a Python dict's are): overwrite the binding in place when the key
exists, else append the new binding. -/
def dictInsert : List (String × String) → String → String →
    List (String × String)
  | [], k, v => [(k, v)]
  | (a, b) :: t, k, v =>
    if a == k then (k, v) :: t else (a, b) :: dictInsert t k v

/-- One iteration of the symbol loop of `transform_ctl_on_pt`: symbols with
no transition are skipped with a warning, the others get their expression
stored under `E[s_k]`. -/
def transform_step (pn : PetriNetData) (acc : List (String × String))
    (s : String) : List (String × String) :=
  match map_symbol_to_transition s pn with
  | none => acc
  | some t => dictInsert acc s (substitution_expression (get_post_places t pn))

/-- `transform_ctl_on_pt`: the substitution dictionary
`E = {(s_k, e_k)}`. -/
def transform_ctl_on_pt (symbols : List String) (pn : PetriNetData) :
    List (String × String) :=
  symbols.foldl (transform_step pn) []

/-- `apply_ctl_transformation`: for each formula, replace every known
symbol by its expression with plain (non-token-aware) substring
replacement, in dictionary insertion order. -/
def apply_ctl_transformation (formulas : List String)
    (substitutions : List (String × String)) : List String :=
  formulas.map (fun c =>
    substitutions.foldl (fun f p => strReplace f p.1 p.2) c)

/-- The net of the Formula-Substitution scenario: transition `t_T1` with
pre-place `p_pre_T1` and single post-place `p_post_T1`. -/
def examplePn : PetriNetData :=
  ⟨["p_pre_T1", "p_post_T1"], ["t_T1"],
   [("p_pre_T1", "t_T1"), ("t_T1", "p_post_T1")]⟩

/-! ## `benchmark/metrics/ssdt.py` — SSDT matrix similarity

The embedding starts from the extracted graph data of
`extract_bpmn_graph_data`: the activity-id and gateway-id key lists, the
sequence flows, and the detected diagram type (`hasCollab` models
`detect_bpmn_type(...) == 'collaboration'`).  Distances are `Option ℕ` with
`none` for `float('inf')`; similarity scores are `ℚ`.  The BFS work list is
fueled with `|nodes| + 1`, which bounds the number of dequeues because every
enqueued node is first marked visited. -/

/-- The extracted graph data for one BPMN model. -/
structure SsdtDoc where
  activities : List String
  gateways : List String
  flows : List (String × String)
  hasCollab : Bool
deriving DecidableEq, Repr

/-- `all_nodes = set(activities) | set(gateways)`, kept as the concatenated
key list; only membership is ever used. -/
def allNodes (d : SsdtDoc) : List String :=
  d.activities ++ d.gateways

/-- `build_graph_with_gateways`: the adjacency of `cur` lists the targets of
the sequence flows leaving `cur` whose two endpoints are both nodes. -/
def graphAdj (d : SsdtDoc) (cur : String) : List String :=
  (d.flows.filter (fun f =>
    f.1 == cur && decide (f.1 ∈ allNodes d) && decide (f.2 ∈ allNodes d))).map
    (fun f => f.2)

/-- The BFS work-list loop of `calculate_shortest_paths_with_gateways` (the
gateway-constraint branches of the source are `pass` and have no effect).
State: queue, visited list, distance bindings; a neighbor is bound to
`dist(current) + 1` when first visited and pushed at the back of the
queue. -/
def bfsLoop (adjF : String → List String) (nodes : List String) :
    Nat → List String → List String →
      List (String × Nat) → List (String × Nat)
  | 0, _, _, dist => dist
  | _ + 1, [], _, dist => dist
  | fuel + 1, c :: rest, visited, dist =>
    let dc := (dist.lookup c).getD 0
    let st := (adjF c).foldl
      (fun (st : List String × List (String × Nat) × List String) nb =>
        if nb ∈ nodes ∧ nb ∉ st.1 then
          (nb :: st.1, st.2.1 ++ [(nb, dc + 1)], st.2.2 ++ [nb])
        else st)
      (visited, dist, rest)
    bfsLoop adjF nodes fuel st.2.2 st.1 st.2.1

/-- All finite BFS distances from `src`; a node without a binding is at
distance `float('inf')`. -/
def bfsDistances (d : SsdtDoc) (nodes : List String) (src : String) :
    List (String × Nat) :=
  bfsLoop (graphAdj d) nodes (nodes.length + 1) [src] [src] [(src, 0)]

/-- `shortest_paths[source][target]` as an optional finite distance. -/
def shortestPath (d : SsdtDoc) (nodes : List String) (src tgt : String) :
    Option Nat :=
  (bfsDistances d nodes src).lookup tgt

/-- The lexicographically sorted node list
`sorted(list(activities.keys()) + list(gateways.keys()))`. -/
def ssdtNodes (d : SsdtDoc) : List String :=
  sortStrings (d.activities ++ d.gateways)

/-- Matrix entry access; out-of-range indices (never used on the square
matrices the pipeline builds) default to `none`. -/
def getEntry (m : List (List (Option Nat))) (i j : Nat) : Option Nat :=
  (m.getD i []).getD j none

/-- `build_ssdt_matrix`: `0` on the diagonal, the BFS distance elsewhere. -/
def build_ssdt_matrix (d : SsdtDoc) : List (List (Option Nat)) :=
  let ns := ssdtNodes d
  (List.range ns.length).map (fun i =>
    (List.range ns.length).map (fun j =>
      if i = j then some 0
      else shortestPath d ns (ns.getD i "") (ns.getD j "")))

/-- One cell of an aligned matrix: `align_ssdt_matrices` copies the original
square `n×n` block and pads every other cell with `0` on the diagonal and
`inf` off it.  This is the cell-for-cell result of its copy and pad loops
for the square matrices `build_ssdt_matrix` produces. -/
def alignCell (m : List (List (Option Nat))) (i j : Nat) : Option Nat :=
  if i < m.length ∧ j < m.length then getEntry m i j
  else if i = j then some 0 else none

/-- One aligned matrix of `align_ssdt_matrices`, at dimension
`max_dim = max(n₁, n₂)`. -/
def align_ssdt_matrix (m : List (List (Option Nat))) (maxDim : Nat) :
    List (List (Option Nat)) :=
  (List.range maxDim).map (fun i =>
    (List.range maxDim).map (fun j => alignCell m i j))

/-- `calculate_ssdt_similarity(matrix1, matrix2)`: the fraction of equal
cells over the `min(n₁,n₂) × min(m₁,m₂)` region, `0.0` for empty input. -/
def calculate_ssdt_similarity (m1 m2 : List (List (Option Nat))) : ℚ :=
  if m1.isEmpty || m2.isEmpty then 0
  else
    let n := min m1.length m2.length
    let m := min (m1.headD []).length (m2.headD []).length
    if n = 0 ∨ m = 0 then 0
    else
      let matching := ((List.range n).map (fun i =>
        ((List.range m).filter
          (fun j => getEntry m1 i j == getEntry m2 i j)).length)).sum
      (matching : ℚ) / ((n * m : Nat) : ℚ)

/-- The validation message for a collaboration benchmark model. -/
def benchmarkCollabMsg : String :=
  "Benchmark model must be a process diagram (non-collaboration). SSDT is only applicable to process diagrams."

/-- The validation message for a collaboration target model. -/
def targetCollabMsg : String :=
  "Target model must be a process diagram (non-collaboration). SSDT is only applicable to process diagrams."

/-- `calculate_bpmn_ssdt_similarity`: raise `ValueError` (modelled as
`Except.error`) when either model is a collaboration diagram, otherwise
build both SSDT matrices, align them to `max(n₁,n₂)` and score them; the
returned rational is the `ssdt_similarity` field of the result
dictionary. -/
def calculate_bpmn_ssdt_similarity (benchmark target : SsdtDoc) :
    Except String ℚ :=
  if benchmark.hasCollab then Except.error benchmarkCollabMsg
  else if target.hasCollab then Except.error targetCollabMsg
  else
    let m1 := build_ssdt_matrix benchmark
    let m2 := build_ssdt_matrix target
    let maxDim := max m1.length m2.length
    Except.ok (calculate_ssdt_similarity
      (align_ssdt_matrix m1 maxDim) (align_ssdt_matrix m2 maxDim))

/-- The score Claim C9 describes, written from the claim's words: the
fraction of equal cells over the `min(n₁,n₂) × min(n₁,n₂)` overlap region of
the two original, pre-alignment matrices.  Declared only to be compared
against the behavior of `calculate_bpmn_ssdt_similarity`. -/
def spec_overlap_score (m1 m2 : List (List (Option Nat))) : ℚ :=
  let n := min m1.length m2.length
  if n = 0 then 0
  else
    let matching := ((List.range n).map (fun i =>
      ((List.range n).filter
        (fun j => getEntry m1 i j == getEntry m2 i j)).length)).sum
    (matching : ℚ) / ((n * n : Nat) : ℚ)

/-- The score the pipeline actually computes, written directly: the fraction
of equal cells over the full `max(n₁,n₂) × max(n₁,n₂)` aligned region. -/
def aligned_region_score (m1 m2 : List (List (Option Nat))) : ℚ :=
  let d := max m1.length m2.length
  if d = 0 then 0
  else
    let cells := (List.range d).flatMap (fun i =>
      (List.range d).map (fun j => (i, j)))
    let matching := cells.countP (fun p =>
      getEntry (align_ssdt_matrix m1 d) p.1 p.2
        == getEntry (align_ssdt_matrix m2 d) p.1 p.2)
    (matching : ℚ) / ((d * d : Nat) : ℚ)

/-- A one-activity process model: node `A`, no flows. -/
def benchDoc : SsdtDoc := ⟨["A"], [], [], false⟩

/-- A two-activity process model: nodes `A`, `B` and the flow `A → B`. -/
def targDoc : SsdtDoc := ⟨["A", "B"], [], [("A", "B")], false⟩

/-! ## `benchmark/metrics/jaccard.py` — Jaccard flow-set similarity

The extractors catch `ET.ParseError` and return the empty set, so an input
is either a parsed document or an unparseable one — modelled as
`Option JaccardDoc` with `none` for the unparseable case. -/

/-- One `sequenceFlow`/`messageFlow` element with the attributes the
extractor reads. -/
structure FlowElem where
  id : String
  sourceRef : String
  targetRef : String
deriving DecidableEq, Repr

/-- A parsed BPMN document as the Jaccard metric sees it. -/
structure JaccardDoc where
  sequence_flow_elems : List FlowElem
  message_flow_elems : List FlowElem
deriving DecidableEq, Repr

/-- `extract_sequence_flows`: the set of `source->target` keys of the
sequence flows whose id and refs are all non-empty; an unparseable input
degrades to the empty set. -/
def extract_sequence_flows (x : Option JaccardDoc) : Finset String :=
  match x with
  | none => ∅
  | some d =>
    ((d.sequence_flow_elems.filter (fun f =>
      f.id != "" && f.sourceRef != "" && f.targetRef != "")).map
      (fun f => f.sourceRef ++ "->" ++ f.targetRef)).toFinset

/-- `extract_message_flows`: same, over the message flows. -/
def extract_message_flows (x : Option JaccardDoc) : Finset String :=
  match x with
  | none => ∅
  | some d =>
    ((d.message_flow_elems.filter (fun f =>
      f.id != "" && f.sourceRef != "" && f.targetRef != "")).map
      (fun f => f.sourceRef ++ "->" ++ f.targetRef)).toFinset

/-- `calculate_jaccard_similarity`: `|A∩B| / |A∪B|` with the
empty-vs-empty convention `1.0`. -/
def calculate_jaccard_similarity (s1 s2 : Finset String) : ℚ :=
  if s1 = ∅ ∧ s2 = ∅ then 1
  else if s1 ∪ s2 = ∅ then 0
  else ((s1 ∩ s2).card : ℚ) / ((s1 ∪ s2).card : ℚ)

/-- The four similarity fields of the result dictionary of
`calculate_bpmn_jaccard_similarity`. -/
structure JaccardResult where
  sequence_flow_similarity : ℚ
  message_flow_similarity : ℚ
  overall_similarity : ℚ
  weighted_similarity : ℚ
deriving DecidableEq, Repr

/-- `calculate_bpmn_jaccard_similarity`: the sequence-flow, message-flow,
overall (`all_flows = sequence ∪ message`) and weighted
(`0.7·sequence + 0.3·message`) similarities. -/
def calculate_bpmn_jaccard_similarity (benchmark target : Option JaccardDoc) :
    JaccardResult :=
  let bseq := extract_sequence_flows benchmark
  let bmsg := extract_message_flows benchmark
  let tseq := extract_sequence_flows target
  let tmsg := extract_message_flows target
  let seqSim := calculate_jaccard_similarity bseq tseq
  let msgSim := calculate_jaccard_similarity bmsg tmsg
  let allSim := calculate_jaccard_similarity (bseq ∪ bmsg) (tseq ∪ tmsg)
  ⟨seqSim, msgSim, allSim, seqSim * (7 / 10) + msgSim * (3 / 10)⟩
/-! ### Lemmas about the removal phase -/

/-- Erasing a batch of records none of which equals `a` leaves a leading `a`
in place. -/
lemma foldl_erase_cons (rem : List Flow) :
    ∀ (l : List Flow) (a : Flow), (∀ b ∈ rem, b ≠ a) →
      rem.foldl (fun acc f => acc.erase f) (a :: l)
        = a :: rem.foldl (fun acc f => acc.erase f) l := by
  induction rem with
  | nil => intro l a _; rfl
  | cons b bs ih =>
      intro l a h
      have hba : b ≠ a := h b (List.mem_cons_self b bs)
      have : (a :: l).erase b = a :: l.erase b := by
        rw [List.erase_cons_tail]
        simp [hba, beq_iff_eq]
        exact fun hc => hba hc.symm
      simp only [List.foldl_cons, this]
      exact ih (l.erase b) a (fun b' hb' => h b' (List.mem_cons_of_mem b hb'))

/-- Collect-then-erase equals filtering out: the Python pattern
`for f in F: if cond(f): to_remove.append(f)` followed by
`for f in to_remove: F.remove(f)` keeps exactly the records failing the
condition. -/
lemma foldl_erase_filter (p : Flow → Bool) :
    ∀ (l : List Flow),
      (l.filter p).foldl (fun acc f => acc.erase f) l
        = l.filter (fun f => !(p f)) := by
  intro l
  induction l with
  | nil => rfl
  | cons a t ih =>
      by_cases hp : p a
      · simp only [List.filter_cons, hp, if_pos, List.foldl_cons,
          List.erase_cons_head, Bool.not_true, if_neg]
        simpa [hp] using ih
      · have hfil : (a :: t).filter p = t.filter p := by
          simp [List.filter_cons, hp]
        have hstep : (t.filter p).foldl (fun acc f => acc.erase f) (a :: t)
            = a :: (t.filter p).foldl (fun acc f => acc.erase f) t := by
          apply foldl_erase_cons
          intro b hb hba
          have := List.of_mem_filter hb
          rw [hba] at this
          simp [hp] at this
        rw [hfil, hstep, ih]
        simp [List.filter_cons, hp]

/-- The removal phase is a filter by the pooled-subsumption test. -/
lemma remove_subsumed_eq_filter (flows : List Flow) (IC OC : Finset String) :
    remove_subsumed_flows flows IC OC
      = flows.filter (fun f => !(flowSubsumed IC OC f)) :=
  foldl_erase_filter (flowSubsumed IC OC) flows

/-! ### Lemmas about the addition phase and the closures -/

/-- A fold whose steps only ever append preserves membership. -/
lemma mem_foldl_of_append_step {α β : Type} (σ : List α → β → List α)
    (hσ : ∀ a x, a ⊆ σ a x) :
    ∀ (xs : List β) (a : List α) (f : α), f ∈ a → f ∈ xs.foldl σ a := by
  intro xs
  induction xs with
  | nil => intro a f hf; exact hf
  | cons x xs ih => intro a f hf; exact ih (σ a x) f (hσ a x hf)

/-- Case analysis on membership after a fold: an element of the result was
in the start list or was introduced by one of the steps. -/
lemma mem_foldl_cases {α β : Type} (σ : List α → β → List α)
    (P : α → β → Prop) (hσ : ∀ a x f, f ∈ σ a x → f ∈ a ∨ P f x) :
    ∀ (xs : List β) (a : List α) (f : α),
      f ∈ xs.foldl σ a → f ∈ a ∨ ∃ x ∈ xs, P f x := by
  intro xs
  induction xs with
  | nil => intro a f hf; exact Or.inl hf
  | cons x xs ih =>
      intro a f hf
      rcases ih (σ a x) f hf with h | ⟨x', hx', hP⟩
      · rcases hσ a x f h with h' | hP
        · exact Or.inl h'
        · exact Or.inr ⟨x, List.mem_cons_self x xs, hP⟩
      · exact Or.inr ⟨x', List.mem_cons_of_mem x hx', hP⟩

/-- Each single append-or-keep step of the addition phase. -/
lemma augmentGateway_subset (acc : List Flow) (gw : Gateway) :
    acc ⊆ augmentGateway acc gw := by
  unfold augmentGateway
  intro f hf
  apply mem_foldl_of_append_step
  · intro a x
    dsimp only
    split
    · exact fun _ h => h
    · exact fun _ h => List.mem_append_left _ h
  · apply mem_foldl_of_append_step
    · intro a x
      dsimp only
      split
      · exact fun _ h => h
      · exact fun _ h => List.mem_append_left _ h
    · exact hf

/-- The addition phase only appends records. -/
lemma subset_augment_with_gateways (flows : List Flow) (gws : List Gateway) :
    flows ⊆ augment_with_gateways flows gws := by
  intro f hf
  exact mem_foldl_of_append_step _ augmentGateway_subset gws flows f hf

/-- Every record the addition phase introduces has a gateway symbol of the
list as one endpoint. -/
lemma mem_augment_with_gateways (flows : List Flow) (gws : List Gateway)
    (f : Flow) (hf : f ∈ augment_with_gateways flows gws) :
    f ∈ flows ∨ ∃ gw ∈ gws,
      f.tgt = gw.gateway_symbol ∨ f.src = gw.gateway_symbol := by
  refine mem_foldl_cases augmentGateway
    (fun f gw => f.tgt = gw.gateway_symbol ∨ f.src = gw.gateway_symbol)
    ?_ gws flows f hf
  intro a gw g hg
  unfold augmentGateway at hg
  have h2 := mem_foldl_cases
    (fun (a : List Flow) (o : String) =>
      if a.any (fun f => f.src == gw.gateway_symbol && f.tgt == o) then a
      else a ++ [⟨"GATEWAY", gw.gateway_symbol, o⟩])
    (fun g _ => g.src = gw.gateway_symbol) ?_ gw.to_tasks _ g hg
  · rcases h2 with h2 | ⟨_, _, h2⟩
    · have h1 := mem_foldl_cases
        (fun (a : List Flow) (i : String) =>
          if a.any (fun f => f.src == i && f.tgt == gw.gateway_symbol) then a
          else a ++ [⟨"GATEWAY", i, gw.gateway_symbol⟩])
        (fun g _ => g.tgt = gw.gateway_symbol) ?_ gw.from_tasks a g h2
      · rcases h1 with h1 | ⟨_, _, h1⟩
        · exact Or.inl h1
        · exact Or.inr (Or.inl h1)
      · intro a' x g' hg'
        dsimp only at hg'
        split at hg'
        · exact Or.inl hg'
        · rcases List.mem_append.mp hg' with h | h
          · exact Or.inl h
          · simp at h; subst h; exact Or.inr rfl
    · exact Or.inr (Or.inr h2)
  · intro a' x g' hg'
    dsimp only at hg'
    split at hg'
    · exact Or.inl hg'
    · rcases List.mem_append.mp hg' with h | h
      · exact Or.inl h
      · simp at h; subst h; exact Or.inr rfl

/-- `foldlM` invariant in the `Option` monad: if every step only adds
elements satisfying `P`, so does the whole fold. -/
lemma foldlM_closure_inv (step : String → Finset String → Option (Finset String))
    (P : String → Prop)
    (hstep : ∀ e c o, step e c = some o → ∀ s ∈ o, s ∈ c ∨ P s) :
    ∀ (l : List String) (c o : Finset String),
      l.foldlM (fun c e => step e c) c = some o → ∀ s ∈ o, s ∈ c ∨ P s := by
  intro l
  induction l with
  | nil =>
      intro c o h s hs
      have hco : c = o := by simpa using h
      subst hco
      exact Or.inl hs
  | cons e es ih =>
      intro c o h s hs
      rw [List.foldlM_cons] at h
      rcases Option.bind_eq_some.mp h with ⟨c', hc', hrest⟩
      rcases ih c' o hrest s hs with h' | hP
      · exact hstep e c c' hc' s h'
      · exact Or.inr hP

/-- Elements that `add_output_actions_to_closure` adds are leaves: they are
not gateway symbols of the list. -/
lemma add_output_closure_leaves (gws : List Gateway) :
    ∀ (fuel : Nat) (elem : String) (c o : Finset String),
      add_output_actions_to_closure gws fuel elem c = some o →
        ∀ s ∈ o, s ∈ c ∨ gatewayLookup gws s = none := by
  intro fuel
  induction fuel with
  | zero => intro elem c o h; exact absurd h (by simp [add_output_actions_to_closure])
  | succ n ih =>
      intro elem c o h s hs
      rw [add_output_actions_to_closure] at h
      cases hg : gatewayLookup gws elem with
      | some gw =>
          rw [hg] at h
          exact foldlM_closure_inv _ _ (fun e c o h => ih e c o h) gw.to_tasks c o h s hs
      | none =>
          rw [hg] at h
          simp only [Option.some.injEq] at h
          subst h
          rcases Finset.mem_insert.mp hs with h' | h'
          · subst h'; exact Or.inr hg
          · exact Or.inl h'

/-- Elements that `add_input_actions_to_closure` adds are leaves. -/
lemma add_input_closure_leaves (gws : List Gateway) :
    ∀ (fuel : Nat) (elem : String) (c o : Finset String),
      add_input_actions_to_closure gws fuel elem c = some o →
        ∀ s ∈ o, s ∈ c ∨ gatewayLookup gws s = none := by
  intro fuel
  induction fuel with
  | zero => intro elem c o h; exact absurd h (by simp [add_input_actions_to_closure])
  | succ n ih =>
      intro elem c o h s hs
      rw [add_input_actions_to_closure] at h
      cases hg : gatewayLookup gws elem with
      | some gw =>
          rw [hg] at h
          exact foldlM_closure_inv _ _ (fun e c o h => ih e c o h) gw.from_tasks c o h s hs
      | none =>
          rw [hg] at h
          simp only [Option.some.injEq] at h
          subst h
          rcases Finset.mem_insert.mp hs with h' | h'
          · subst h'; exact Or.inr hg
          · exact Or.inl h'

/-- `foldlM` invariant, lifted over the outer fold on gateways. -/
lemma global_closure_inv
    (tasksOf : Gateway → List String)
    (step : Nat → String → Finset String → Option (Finset String))
    (P : String → Prop)
    (hstep : ∀ fuel e c o, step fuel e c = some o → ∀ s ∈ o, s ∈ c ∨ P s)
    (fuel : Nat) :
    ∀ (l : List Gateway) (c o : Finset String),
      l.foldlM (fun acc gw =>
        (tasksOf gw).foldlM (fun c t => step fuel t c) acc) c = some o →
        ∀ s ∈ o, s ∈ c ∨ P s := by
  intro l
  induction l with
  | nil =>
      intro c o h s hs
      have hco : c = o := by simpa using h
      subst hco
      exact Or.inl hs
  | cons gw rest ih =>
      intro c o h s hs
      rw [List.foldlM_cons] at h
      rcases Option.bind_eq_some.mp h with ⟨c', hc', hrest⟩
      rcases ih c' o hrest s hs with h' | hP
      · exact foldlM_closure_inv _ _ (hstep fuel) (tasksOf gw) c c' hc' s h'
      · exact Or.inr hP

/-- Every member of the pooled input closure is a leaf identifier. -/
lemma global_input_closure_leaves (gws : List Gateway) (fuel : Nat)
    (IC : Finset String) (h : global_input_closure gws fuel = some IC) :
    ∀ s ∈ IC, gatewayLookup gws s = none := by
  intro s hs
  rcases global_closure_inv (fun gw => gw.from_tasks)
      (fun fuel t c => add_input_actions_to_closure gws fuel t c)
      (fun s => gatewayLookup gws s = none)
      (fun fuel e c o h => add_input_closure_leaves gws fuel e c o h)
      fuel gws ∅ IC h s hs with h' | h'
  · exact absurd h' (Finset.not_mem_empty s)
  · exact h'

/-- Every member of the pooled output closure is a leaf identifier. -/
lemma global_output_closure_leaves (gws : List Gateway) (fuel : Nat)
    (OC : Finset String) (h : global_output_closure gws fuel = some OC) :
    ∀ s ∈ OC, gatewayLookup gws s = none := by
  intro s hs
  rcases global_closure_inv (fun gw => gw.to_tasks)
      (fun fuel t c => add_output_actions_to_closure gws fuel t c)
      (fun s => gatewayLookup gws s = none)
      (fun fuel e c o h => add_output_closure_leaves gws fuel e c o h)
      fuel gws ∅ OC h s hs with h' | h'
  · exact absurd h' (Finset.not_mem_empty s)
  · exact h'

/-- A gateway of the list is found by the symbol lookup. -/
lemma gatewayLookup_isSome (gws : List Gateway) (gw : Gateway)
    (h : gw ∈ gws) : (gatewayLookup gws gw.gateway_symbol).isSome := by
  rw [gatewayLookup, List.find?_isSome]
  exact ⟨gw, List.mem_reverse.mpr h, by simp⟩

/-- Claim C4 (amended): `update_seq_with_gate` pools every gateway's input
closure into one set `IC` and every output closure into one set `OC`, and
removes an edge `(u, v)` if and only if `u ∈ IC` and `v ∈ OC` — the two
endpoints may come from two different gateways. -/
theorem update_seq_with_gate_removes_iff_pooled
    (flows : List Flow) (gws : List Gateway) (fuel : Nat)
    (IC OC : Finset String) (out : List Flow)
    (hIC : global_input_closure gws fuel = some IC)
    (hOC : global_output_closure gws fuel = some OC)
    (hout : update_seq_with_gate flows gws fuel = some out) :
    ∀ f ∈ flows, (f ∉ out ↔ f.src ∈ IC ∧ f.tgt ∈ OC) := by
  have hval : out = augment_with_gateways
      (remove_subsumed_flows flows IC OC) gws := by
    rw [update_seq_with_gate, hIC] at hout
    rw [hOC] at hout
    simpa using hout.symm
  subst hval
  intro f hf
  rw [remove_subsumed_eq_filter]
  constructor
  · intro hnot
    by_contra hcond
    apply hnot
    apply subset_augment_with_gateways
    refine List.mem_filter.mpr ⟨hf, ?_⟩
    simp only [flowSubsumed, Bool.not_eq_true', Bool.and_eq_false_iff]
    rcases not_and_or.mp hcond with h | h
    · exact Or.inl (by simpa using h)
    · exact Or.inr (by simpa using h)
  · rintro ⟨hsrc, htgt⟩ hmem
    rcases mem_augment_with_gateways _ gws f hmem with h | ⟨gw, hgw, h | h⟩
    · have := (List.mem_filter.mp h).2
      simp [flowSubsumed, hsrc, htgt] at this
    · have hleaf := global_output_closure_leaves gws fuel OC hOC f.tgt htgt
      have := gatewayLookup_isSome gws gw hgw
      rw [← h, hleaf] at this
      simp at this
    · have hleaf := global_input_closure_leaves gws fuel IC hIC f.src hsrc
      have := gatewayLookup_isSome gws gw hgw
      rw [← h, hleaf] at this
      simp at this

/-- Witness for C4's amended theorem at a concrete reduced instance. -/
theorem update_seq_with_gate_removes_iff_pooled_witness :
    (⟨"x", "A", "B"⟩ : Flow) ∉
        [(⟨"GATEWAY", "A", "G1"⟩ : Flow), ⟨"GATEWAY", "G1", "B"⟩] ↔
      "A" ∈ ({"A"} : Finset String) ∧ "B" ∈ ({"B"} : Finset String) :=
  update_seq_with_gate_removes_iff_pooled
    [⟨"x", "A", "B"⟩] [⟨"G1", ["A"], ["B"]⟩] 2 {"A"} {"B"}
    [⟨"GATEWAY", "A", "G1"⟩, ⟨"GATEWAY", "G1", "B"⟩]
    (by decide) (by decide) (by decide) ⟨"x", "A", "B"⟩ (by decide)

/-- Counterexample to Claim C4 as stated: for gateways `G1 : A → B` and
`G2 : C → D` the edge `(A, D)` has its source in `IC(G1)` and its target in
`OC(G2)` only — no single gateway subsumes it — yet the reducer removes
it. -/
theorem update_seq_with_gate_cross_gateway_removed :
    update_seq_with_gate [⟨"x", "A", "D"⟩]
        [⟨"G1", ["A"], ["B"]⟩, ⟨"G2", ["C"], ["D"]⟩] 2
      = some [⟨"GATEWAY", "A", "G1"⟩, ⟨"GATEWAY", "G1", "B"⟩,
              ⟨"GATEWAY", "C", "G2"⟩, ⟨"GATEWAY", "G2", "D"⟩] ∧
    (⟨"x", "A", "D"⟩ : Flow) ∉
      [(⟨"GATEWAY", "A", "G1"⟩ : Flow), ⟨"GATEWAY", "G1", "B"⟩,
       ⟨"GATEWAY", "C", "G2"⟩, ⟨"GATEWAY", "G2", "D"⟩] := by
  constructor <;> decide

/-- Expanding the input closure of the self-referencing gateway consumes
any amount of fuel without finishing. -/
lemma add_input_cyclic_none :
    ∀ (fuel : Nat) (c : Finset String),
      add_input_actions_to_closure [cyclicGateway] fuel "G1" c = none := by
  intro fuel
  induction fuel with
  | zero => intro c; rfl
  | succ n ih =>
      intro c
      rw [add_input_actions_to_closure]
      have hg : gatewayLookup [cyclicGateway] "G1" = some cyclicGateway := by
        rfl
      rw [hg]
      show (List.foldlM _ c ["G1"] : Option (Finset String)) = none
      rw [List.foldlM_cons, ih c]
      rfl

/-- Claim C5 (the code violates it): on a cyclic gateway reference graph the
closure recursion of `update_seq_with_gate` never finishes, whatever fuel it
is given — the Python original recurses without bound instead of reporting a
structural error. -/
theorem update_seq_with_gate_cyclic_diverges :
    ∀ fuel : Nat, update_seq_with_gate [] [cyclicGateway] fuel = none := by
  intro fuel
  have hglob : global_input_closure [cyclicGateway] fuel = none := by
    rw [global_input_closure]
    show (List.foldlM _ ∅ [cyclicGateway] : Option (Finset String)) = none
    rw [List.foldlM_cons]
    show (List.foldlM _ ∅ ["G1"] >>= _ : Option (Finset String)) = none
    rw [List.foldlM_cons, add_input_cyclic_none fuel ∅]
    rfl
  rw [update_seq_with_gate, hglob]
  rfl

/-- A fold every step of which fixes the start value is the identity. -/
lemma foldl_fixed {α β : Type} (σ : α → β → α) (a : α) :
    ∀ xs : List β, (∀ x ∈ xs, σ a x = a) → xs.foldl σ a = a := by
  intro xs
  induction xs with
  | nil => intro _; rfl
  | cons x xs ih =>
      intro h
      rw [List.foldl_cons, h x (List.mem_cons_self x xs)]
      exact ih (fun x' hx' => h x' (List.mem_cons_of_mem x hx'))

/-- Claim C6: the reducer is idempotent on already-reduced flow sets — if no
record is subsumed by the pooled closures and every gateway connection
`(i, g)` and `(g, o)` is already present, the flow list comes back
unchanged. -/
theorem update_seq_with_gate_idempotent_on_reduced
    (flows : List Flow) (gws : List Gateway) (fuel : Nat)
    (IC OC : Finset String)
    (hIC : global_input_closure gws fuel = some IC)
    (hOC : global_output_closure gws fuel = some OC)
    (hred : ∀ f ∈ flows, ¬(f.src ∈ IC ∧ f.tgt ∈ OC))
    (hin : ∀ gw ∈ gws, ∀ i ∈ gw.from_tasks,
      ∃ f ∈ flows, f.src = i ∧ f.tgt = gw.gateway_symbol)
    (hout : ∀ gw ∈ gws, ∀ o ∈ gw.to_tasks,
      ∃ f ∈ flows, f.src = gw.gateway_symbol ∧ f.tgt = o) :
    update_seq_with_gate flows gws fuel = some flows := by
  rw [update_seq_with_gate, hIC]
  rw [hOC]
  have hrem : remove_subsumed_flows flows IC OC = flows := by
    rw [remove_subsumed_eq_filter]
    apply List.filter_eq_self.mpr
    intro f hf
    simp only [flowSubsumed, Bool.not_eq_true', Bool.and_eq_false_iff]
    rcases not_and_or.mp (hred f hf) with h | h
    · exact Or.inl (by simpa using h)
    · exact Or.inr (by simpa using h)
  have haug : augment_with_gateways flows gws = flows := by
    apply foldl_fixed
    intro gw hgw
    unfold augmentGateway
    have h1 : gw.from_tasks.foldl
        (fun a i =>
          if a.any (fun f => f.src == i && f.tgt == gw.gateway_symbol) then a
          else a ++ [⟨"GATEWAY", i, gw.gateway_symbol⟩]) flows = flows := by
      apply foldl_fixed
      intro i hi
      rcases hin gw hgw i hi with ⟨f, hf, hsrc, htgt⟩
      have : flows.any (fun f => f.src == i && f.tgt == gw.gateway_symbol)
          = true :=
        List.any_eq_true.mpr ⟨f, hf, by simp [hsrc, htgt]⟩
      simp [this]
    rw [h1]
    apply foldl_fixed
    intro o ho
    rcases hout gw hgw o ho with ⟨f, hf, hsrc, htgt⟩
    have : flows.any (fun f => f.src == gw.gateway_symbol && f.tgt == o)
        = true :=
      List.any_eq_true.mpr ⟨f, hf, by simp [hsrc, htgt]⟩
    simp [this]
  show some (augment_with_gateways (remove_subsumed_flows flows IC OC) gws)
      = some flows
  rw [hrem, haug]

/-- Witness for C6 at a concrete already-reduced instance. -/
theorem update_seq_with_gate_idempotent_on_reduced_witness :
    update_seq_with_gate [⟨"x", "A", "G1"⟩, ⟨"x", "G1", "B"⟩]
        [⟨"G1", ["A"], ["B"]⟩] 2
      = some [⟨"x", "A", "G1"⟩, ⟨"x", "G1", "B"⟩] :=
  update_seq_with_gate_idempotent_on_reduced
    [⟨"x", "A", "G1"⟩, ⟨"x", "G1", "B"⟩] [⟨"G1", ["A"], ["B"]⟩] 2
    {"A"} {"B"} (by decide) (by decide) (by decide) (by decide) (by decide)

/-! ### Theorems about the Petri-net translator -/

/-- A `flatMap` whose blocks all have two elements doubles the length. -/
lemma length_flatMap_two {α β : Type} (f : α → List β)
    (h : ∀ x, (f x).length = 2) :
    ∀ l : List α, (l.flatMap f).length = 2 * l.length := by
  intro l
  induction l with
  | nil => rfl
  | cons x xs ih =>
      rw [List.flatMap_cons, List.length_append, h x, ih, List.length_cons]
      omega

/-- Claim C3 (amended): the lane converter emits `2 + 2·T + 2·G'` places and
`T + G'` transitions, where `G'` counts only the gateways whose type string
contains the capitalized substrings `"Exclusive"`, `"Inclusive"` or
`"Parallel"`; every other gateway — including every gateway the BPMN parser
itself produces, whose type is a camelCase tag name — contributes no places
and no transitions. -/
theorem convert_lane_place_transition_counts (laneName : String)
    (proc : ProcessInfo) :
    (convert_lane_to_petri_net laneName proc).places.length
        = 2 + 2 * proc.tasks.length
          + 2 * (proc.gateways.filter (fun g => gatewayEmitsPattern g.2)).length
    ∧ (convert_lane_to_petri_net laneName proc).transitions.length
        = proc.tasks.length
          + (proc.gateways.filter (fun g => gatewayEmitsPattern g.2)).length := by
  have h1 : (proc.tasks.flatMap (fun t => ["p_pre_" ++ t, "p_post_" ++ t])).length
      = 2 * proc.tasks.length :=
    length_flatMap_two (fun t => ["p_pre_" ++ t, "p_post_" ++ t])
      (fun _ => rfl) proc.tasks
  have h2 : ((proc.gateways.filter (fun g => gatewayEmitsPattern g.2)).flatMap
        (fun g => ["p_pre_" ++ g.1, "p_post_" ++ g.1])).length
      = 2 * (proc.gateways.filter (fun g => gatewayEmitsPattern g.2)).length :=
    length_flatMap_two (fun (g : String × String) =>
      ["p_pre_" ++ g.1, "p_post_" ++ g.1]) (fun _ => rfl) _
  constructor
  · simp only [convert_lane_to_petri_net, List.length_append, h1, h2,
      List.length_cons, List.length_nil]
  · simp only [convert_lane_to_petri_net, List.length_append, List.length_map]

/-- Counterexample to Claim C3 as stated: a lane holding one exclusive
gateway, with the type string `"exclusiveGateway"` the parser produces,
yields 2 places and 0 transitions where the claim demands
`2 + 2·0 + 2·1 = 4` places and `0 + 1 = 1` transitions. -/
theorem convert_lane_parsed_gateway_contributes_nothing :
    (convert_lane_to_petri_net "L"
        ⟨[], [], [], [("G1", "exclusiveGateway")], []⟩).places.length = 2
    ∧ (convert_lane_to_petri_net "L"
        ⟨[], [], [], [("G1", "exclusiveGateway")], []⟩).transitions.length = 0
    ∧ (convert_lane_to_petri_net "L"
        ⟨[], [], [], [("G1", "exclusiveGateway")], []⟩).places.length
        ≠ 2 + 2 * 0 + 2 * 1 := by
  refine ⟨by decide, by decide, by decide⟩

/-- Claim C2 (amended): for every non-collaboration document the converter
returns the empty net — no places, no transitions, no arcs, no token —
because lanes are derived solely from collaboration participants. -/
theorem convert_bpmn_no_collaboration_empty
    (procs : List (String × ProcessInfo)) :
    convert_bpmn_to_petri_net ⟨none, procs⟩ = ⟨[], [], [], []⟩ := rfl

/-- Counterexample to Claim C2 as stated: the two-task sequential
single-process document produces the empty net, not a net with 6 places, 3
transitions, 4 arcs and an initial token. -/
theorem convert_bpmn_single_process_empty :
    convert_bpmn_to_petri_net singleProcessDoc = ⟨[], [], [], []⟩
    ∧ (convert_bpmn_to_petri_net singleProcessDoc).places.length ≠ 6
    ∧ (convert_bpmn_to_petri_net singleProcessDoc).initial_marking = [] := by
  refine ⟨rfl, by decide, rfl⟩

/-! ### Theorems about the formula-substitution engine -/

/-- Looking up the just-assigned key of a Python-style dict insert. -/
lemma lookup_dictInsert_self (l : List (String × String)) (k v : String) :
    (dictInsert l k v).lookup k = some v := by
  induction l with
  | nil => simp [dictInsert, List.lookup]
  | cons p t ih =>
      obtain ⟨a, b⟩ := p
      rw [dictInsert]
      by_cases hak : (a == k) = true
      · rw [if_pos hak]
        simp [List.lookup]
      · rw [if_neg hak]
        have hka : (k == a) = false := by
          rw [Bool.eq_false_iff]
          intro hc
          rw [beq_iff_eq] at hc hak
          exact hak hc.symm
        simp only [List.lookup, hka]
        exact ih

/-- A Python-style dict insert leaves other keys' lookups unchanged. -/
lemma lookup_dictInsert_ne (l : List (String × String)) (k v k' : String)
    (h : k' ≠ k) : (dictInsert l k v).lookup k' = l.lookup k' := by
  have hk'k : (k' == k) = false := by
    rw [Bool.eq_false_iff]
    intro hc
    rw [beq_iff_eq] at hc
    exact h hc
  induction l with
  | nil => simp [dictInsert, List.lookup, hk'k]
  | cons p t ih =>
      obtain ⟨a, b⟩ := p
      rw [dictInsert]
      by_cases hak : (a == k) = true
      · rw [if_pos hak]
        have hka : (k' == a) = false := by
          rw [Bool.eq_false_iff]
          intro hc
          rw [beq_iff_eq] at hc hak
          exact h (hc.trans hak)
        simp only [List.lookup, hk'k, hka]
      · rw [if_neg hak]
        simp only [List.lookup]
        cases k' == a
        · exact ih
        · rfl

/-- Once the substitution dictionary binds `s` to its canonical expression,
the rest of the symbol loop keeps that binding: later occurrences of `s`
recompute the same expression, other symbols touch other keys. -/
lemma transform_fold_preserves (pn : PetriNetData) (s t : String)
    (ht : map_symbol_to_transition s pn = some t) :
    ∀ (syms : List String) (acc : List (String × String)),
      acc.lookup s
          = some (substitution_expression (get_post_places t pn)) →
        ((syms.foldl (transform_step pn) acc).lookup s
          = some (substitution_expression (get_post_places t pn))) := by
  intro syms
  induction syms with
  | nil => intro acc hacc; exact hacc
  | cons sym rest ih =>
      intro acc hacc
      rw [List.foldl_cons]
      apply ih
      by_cases hss : sym = s
      · subst hss
        rw [transform_step, ht]
        exact lookup_dictInsert_self acc sym _
      · rw [transform_step]
        cases map_symbol_to_transition sym pn
        · exact hacc
        · rw [lookup_dictInsert_ne _ _ _ _ (fun hc => hss hc.symm)]
          exact hacc

/-- A symbol of the list whose transition resolves ends up bound to its
canonical expression. -/
lemma transform_fold_lookup (pn : PetriNetData) (s t : String)
    (ht : map_symbol_to_transition s pn = some t) :
    ∀ (syms : List String) (acc : List (String × String)), s ∈ syms →
      ((syms.foldl (transform_step pn) acc).lookup s
        = some (substitution_expression (get_post_places t pn))) := by
  intro syms
  induction syms with
  | nil => intro acc hs; exact absurd hs (List.not_mem_nil s)
  | cons sym rest ih =>
      intro acc hs
      rw [List.foldl_cons]
      by_cases hss : sym = s
      · subst hss
        apply transform_fold_preserves pn sym t ht rest
        rw [transform_step, ht]
        exact lookup_dictInsert_self acc sym _
      · refine ih _ ?_
        rcases List.mem_cons.mp hs with hc | hc
        · exact absurd hc.symm hss
        · exact hc

/-- Claim C7: a found symbol's substitution expression is the single
post-place when the transition has exactly one, and the parenthesized
` AND `-conjunction when it has several; substituting `T1` with single
post-place `p_post_T1` into `AG(T1)` yields `AG(p_post_T1)`. -/
theorem transform_ctl_substitution_expression (pn : PetriNetData)
    (symbols : List String) (s t : String) (hs : s ∈ symbols)
    (ht : map_symbol_to_transition s pn = some t) :
    ((transform_ctl_on_pt symbols pn).lookup s
        = some (substitution_expression (get_post_places t pn)))
    ∧ (∀ p, get_post_places t pn = [p] →
        substitution_expression (get_post_places t pn) = p)
    ∧ (2 ≤ (get_post_places t pn).length →
        substitution_expression (get_post_places t pn)
          = "(" ++ String.intercalate " AND " (get_post_places t pn) ++ ")")
    ∧ apply_ctl_transformation ["AG(T1)"] (transform_ctl_on_pt ["T1"] examplePn)
        = ["AG(p_post_T1)"] := by
  refine ⟨transform_fold_lookup pn s t ht symbols [] hs, ?_, ?_, by decide⟩
  · intro p hp
    rw [substitution_expression, hp]
    rfl
  · intro h2
    rw [substitution_expression, if_neg (by omega)]

/-- Witness for C7 on the single-post-place net. -/
theorem transform_ctl_substitution_expression_witness :
    (transform_ctl_on_pt ["T1"] examplePn).lookup "T1"
      = some (substitution_expression (get_post_places "t_T1" examplePn)) :=
  (transform_ctl_substitution_expression examplePn ["T1"] "T1" "t_T1"
    (by decide) (by decide)).1

/-- Claim C8: plain substring replacement corrupts a formula that mentions
`T10` when the substitution map binds the strict prefix `T1`: the rewrite
turns `AG(T10)` into `AG(p_post_T10)` although `T10` has no binding and the
formula should have stayed unchanged. -/
theorem apply_ctl_prefix_symbol_corruption :
    apply_ctl_transformation ["AG(T10)"] (transform_ctl_on_pt ["T1"] examplePn)
        = ["AG(p_post_T10)"]
    ∧ (["AG(p_post_T10)"] : List String) ≠ ["AG(T10)"] :=
  ⟨by decide, by decide⟩

/-! ### Theorems about the SSDT and Jaccard similarity metrics -/

/-- Claim C1: a collaboration diagram on either side makes
`calculate_bpmn_ssdt_similarity` raise the validation error instead of
returning a numeric score. -/
theorem calculate_bpmn_ssdt_similarity_collab_error (b t : SsdtDoc)
    (h : b.hasCollab = true ∨ t.hasCollab = true) :
    calculate_bpmn_ssdt_similarity b t
        = Except.error
            (if b.hasCollab then benchmarkCollabMsg else targetCollabMsg)
    ∧ ∀ q : ℚ, calculate_bpmn_ssdt_similarity b t ≠ Except.ok q := by
  by_cases hb : b.hasCollab
  · rw [calculate_bpmn_ssdt_similarity]
    rw [if_pos hb, if_pos hb]
    exact ⟨rfl, fun q hq => by exact absurd hq (by simp)⟩
  · have ht : t.hasCollab = true := h.resolve_left hb
    rw [calculate_bpmn_ssdt_similarity]
    rw [if_neg hb, if_pos (by exact ht), if_neg hb]
    exact ⟨rfl, fun q hq => by exact absurd hq (by simp)⟩

/-- Witness for C1: a collaboration benchmark against a process target. -/
theorem calculate_bpmn_ssdt_similarity_collab_error_witness :
    calculate_bpmn_ssdt_similarity ⟨[], [], [], true⟩ ⟨[], [], [], false⟩
        = Except.error
            (if (⟨[], [], [], true⟩ : SsdtDoc).hasCollab then
              benchmarkCollabMsg else targetCollabMsg)
    ∧ ∀ q : ℚ,
        calculate_bpmn_ssdt_similarity ⟨[], [], [], true⟩ ⟨[], [], [], false⟩
          ≠ Except.ok q :=
  calculate_bpmn_ssdt_similarity_collab_error
    ⟨[], [], [], true⟩ ⟨[], [], [], false⟩ (Or.inl rfl)

/-- Counterexample to Claim C9 as stated: for the one-node model `A` against
the two-node model `A → B` the pipeline returns `3/4` — the matching
fraction over the aligned `2×2` matrices — while the fraction over the
`1×1` pre-alignment overlap region of the original matrices is `1`. -/
theorem ssdt_score_is_not_overlap_fraction :
    calculate_bpmn_ssdt_similarity benchDoc targDoc = Except.ok (3 / 4)
    ∧ spec_overlap_score (build_ssdt_matrix benchDoc)
        (build_ssdt_matrix targDoc) = 1
    ∧ ((3 : ℚ) / 4) ≠ 1 := by
  refine ⟨?_, ?_, by norm_num⟩
  · have e : calculate_bpmn_ssdt_similarity benchDoc targDoc
        = Except.ok (((3 : ℕ) : ℚ) / ((4 : ℕ) : ℚ)) := rfl
    rw [e]
    norm_num
  · have e : spec_overlap_score (build_ssdt_matrix benchDoc)
        (build_ssdt_matrix targDoc) = ((1 : ℕ) : ℚ) / ((1 : ℕ) : ℚ) := rfl
    rw [e]
    norm_num

/-- Claim C10: two unparseable inputs degrade to empty flow sets on both
sides, and the empty-vs-empty convention then reports full similarity on
the sequence-flow, message-flow, overall and weighted scores alike. -/
theorem calculate_bpmn_jaccard_both_unparseable :
    calculate_bpmn_jaccard_similarity none none = ⟨1, 1, 1, 1⟩ := by
  have e : calculate_bpmn_jaccard_similarity none none
      = ⟨1, 1, 1, 1 * (7 / 10) + 1 * (3 / 10)⟩ := rfl
  rw [e]
  norm_num

/-- An aligned matrix has the alignment dimension as its length. -/
lemma align_ssdt_matrix_length (m : List (List (Option Nat))) (d : Nat) :
    (align_ssdt_matrix m d).length = d := by
  simp [align_ssdt_matrix]

/-- For a positive dimension, the first aligned row also has that length. -/
lemma align_ssdt_matrix_head_length (m : List (List (Option Nat)))
    (d : Nat) (hd : d ≠ 0) :
    ((align_ssdt_matrix m d).headD []).length = d := by
  obtain ⟨d', rfl⟩ : ∃ d'', d = d'' + 1 := ⟨d - 1, by omega⟩
  rw [align_ssdt_matrix, List.range_succ_eq_map, List.map_cons]
  simp

/-- Row sums of per-row filter counts equal one count over the product
list. -/
lemma sum_filter_lengths_eq_countP (lj : List Nat) (P : Nat → Nat → Bool) :
    ∀ li : List Nat,
      (li.map (fun i => (lj.filter (fun j => P i j)).length)).sum
        = (li.flatMap (fun i => lj.map (fun j => (i, j)))).countP
            (fun p => P p.1 p.2) := by
  intro li
  induction li with
  | nil => rfl
  | cons i is ih =>
      rw [List.map_cons, List.sum_cons, List.flatMap_cons, List.countP_append,
        ih, List.countP_map]
      congr 1
      rw [List.countP_eq_length_filter]
      rfl

/-- Claim C9 (amended): for every pair of non-collaboration models the
returned score is the fraction of equal cells over the full
`max(n₁,n₂) × max(n₁,n₂)` region of the *aligned* matrices, not over the
pre-alignment overlap region of the originals. -/
theorem calculate_bpmn_ssdt_similarity_scores_aligned_region
    (b t : SsdtDoc) (hb : b.hasCollab = false) (ht : t.hasCollab = false) :
    calculate_bpmn_ssdt_similarity b t
      = Except.ok (aligned_region_score
          (build_ssdt_matrix b) (build_ssdt_matrix t)) := by
  rw [calculate_bpmn_ssdt_similarity, hb, ht]
  simp only [Bool.false_eq_true, if_false]
  congr 1
  rw [aligned_region_score]
  set m1 := build_ssdt_matrix b with hm1
  set m2 := build_ssdt_matrix t with hm2
  set D := max m1.length m2.length with hD
  by_cases hD0 : D = 0
  · rw [if_pos hD0, hD0]
    rfl
  · rw [if_neg hD0, calculate_ssdt_similarity]
    have hne1 : (align_ssdt_matrix m1 D).isEmpty = false := by
      rw [List.isEmpty_eq_false_iff_exists_mem]
      have : (align_ssdt_matrix m1 D).length ≠ 0 := by
        rw [align_ssdt_matrix_length]; exact hD0
      exact List.exists_mem_of_length_pos (by omega)
    have hne2 : (align_ssdt_matrix m2 D).isEmpty = false := by
      rw [List.isEmpty_eq_false_iff_exists_mem]
      have : (align_ssdt_matrix m2 D).length ≠ 0 := by
        rw [align_ssdt_matrix_length]; exact hD0
      exact List.exists_mem_of_length_pos (by omega)
    rw [if_neg (by rw [hne1, hne2]; simp)]
    rw [align_ssdt_matrix_length, align_ssdt_matrix_length,
      align_ssdt_matrix_head_length _ _ hD0,
      align_ssdt_matrix_head_length _ _ hD0, min_self]
    simp only []
    rw [if_neg (by omega)]
    rw [sum_filter_lengths_eq_countP]

/-- Witness for C9's amended theorem on the two concrete process models. -/
theorem calculate_bpmn_ssdt_similarity_scores_aligned_region_witness :
    calculate_bpmn_ssdt_similarity benchDoc targDoc
      = Except.ok (aligned_region_score
          (build_ssdt_matrix benchDoc) (build_ssdt_matrix targDoc)) :=
  calculate_bpmn_ssdt_similarity_scores_aligned_region benchDoc targDoc rfl rfl

end BPMN
